import Mathlib

/-!
Shallow embedding of the context-compaction subsystem of the cocodex
repository (`src/cocodex-typescript-langgraph/src/improve-01/index.ts`,
class `ContextCompactor`), together with theorems settling the spec
claims about it.

Modelling conventions:
* `BaseMessage` values are modelled by `Message`: a role tag (the value
  returned by `_getType()`) plus a content that is either a plain string
  or an array of typed parts, exactly the shapes the compactor inspects.
* The tiktoken encoder (`this.encoding.encode(text).length`) is an
  opaque parameter `enc : String → Nat`.
* JavaScript numbers used for ratios and configuration are modelled by
  `ℚ`; token counts are `Nat`.
* The asynchronous summarization delegate (a ChatOpenAI call that may
  throw) is modelled by a function into `Except E String`; a thrown
  exception is `Except.error`.
-/

namespace Cocodex

/-- Message role, as returned by `_getType()` in langchain:
`"system" | "human" | "ai" | "tool"`. -/
inductive Role where
  | system
  | human
  | ai
  | tool
deriving DecidableEq, Repr

/-- Resolution hint of an image part (`image_url.detail`); `auto` also
stands for any other string value. -/
inductive Detail where
  | low
  | high
  | auto
deriving DecidableEq, Repr

/-- One element of an array-valued message content. The compactor only
inspects items of type `"image_url"` (with an optional `detail` field,
`none` meaning the field is absent) and `"text"`; any other item type is
`other` and is ignored by the estimator. -/
inductive ContentPart where
  | text (s : String)
  | image (detail : Option Detail)
  | other
deriving DecidableEq, Repr

/-- Message content: a plain string or an array of parts
(`MessageContent` in langchain). -/
inductive Content where
  | str (s : String)
  | parts (ps : List ContentPart)
deriving DecidableEq, Repr

/-- A chat message as seen by the compactor. -/
structure Message where
  role : Role
  content : Content
deriving DecidableEq, Repr

/-- `CompactionOptions` after the constructor filled the defaults
(`Required<CompactionOptions>`).  `contextWindowSize` and `threshold`
are JavaScript numbers, modelled by `ℚ`. -/
structure CompactionOptions where
  contextWindowSize : ℚ
  threshold : ℚ
  preserveRecentCount : Nat
deriving DecidableEq, Repr

/-- `CompactionResult` as returned by `compactMessages`. -/
structure CompactionResult where
  compacted : Bool
  originalCount : Nat
  compactedCount : Nat
  originalTokens : Nat
  compactedTokens : Nat
  messages : List Message
deriving DecidableEq, Repr

/-- `CommandResult` from `sample-03/commands.ts`: the tagged union
`{type:"prompt"} | {type:"close"} | {type:"executed"} | {type:"error"}`. -/
inductive CommandResult where
  | prompt (message : String)
  | close
  | executed
  | error (message : String)
deriving DecidableEq, Repr

/-- The JavaScript `x || d` defaulting idiom of the constructor on a
possibly-absent numeric field: absent (`none`) and falsy (`0`) values
are replaced by the default, every other value is kept as-is. -/
def orDefault (v : Option ℚ) (d : ℚ) : ℚ :=
  match v with
  | none => d
  | some x => if x = 0 then d else x

/-- Same defaulting idiom for the `Nat`-valued `preserveRecentCount`. -/
def orDefaultNat (v : Option Nat) (d : Nat) : Nat :=
  match v with
  | none => d
  | some x => if x = 0 then d else x

/-- The `ContextCompactor` constructor: fills each missing or falsy
option with its default (128000, 0.7, 4).  It performs no validation and
has no failure path. -/
def mkOptions (contextWindowSize threshold : Option ℚ)
    (preserveRecentCount : Option Nat) : CompactionOptions :=
  { contextWindowSize := orDefault contextWindowSize 128000
    threshold := orDefault threshold (7 / 10)
    preserveRecentCount := orDefaultNat preserveRecentCount 4 }

/-- Token cost of an `image_url` part: `detail = image_url?.detail || "auto"`;
85 if the detail is `"low"`, otherwise 400. -/
def imagePartTokens (d : Option Detail) : Nat :=
  let detail := d.getD Detail.auto
  if detail = Detail.low then 85 else 400

/-- Token cost of one item of an array-valued content. -/
def partTokens (enc : String → Nat) : ContentPart → Nat
  | ContentPart.image d => imagePartTokens d
  | ContentPart.text s => enc s
  | ContentPart.other => 0

/-- Token cost of one message including the fixed per-message overhead
of 4 (`totalTokens += 4; // 메타데이터`). -/
def messageTokens (enc : String → Nat) (m : Message) : Nat :=
  (match m.content with
   | Content.str s => enc s
   | Content.parts ps => (ps.map (partTokens enc)).foldl (· + ·) 0) + 4

/-- `estimateTokens`: fold the per-message cost over the history and add
the fixed per-call overhead of 3 (`totalTokens += 3; // 구조 오버헤드`). -/
def estimateTokens (enc : String → Nat) (messages : List Message) : Nat :=
  (messages.foldl (fun acc m => acc + messageTokens enc m) 0) + 3

/-- `calculateUsageRatio`: estimated tokens divided by the context
window size. -/
def calculateUsageRatio (enc : String → Nat) (o : CompactionOptions)
    (messages : List Message) : ℚ :=
  (estimateTokens enc messages : ℚ) / o.contextWindowSize

/-- `shouldCompact`: `usageRatio >= this.options.threshold`. -/
def shouldCompact (enc : String → Nat) (o : CompactionOptions)
    (messages : List Message) : Bool :=
  decide (o.threshold ≤ calculateUsageRatio enc o messages)

/-- Whether a message's role is `"system"`. -/
def isSystem (m : Message) : Bool :=
  m.role = Role.system

/-- The `systemMessages` collected by the classification loop of
`compactMessages`: the maximal prefix of system-role messages. -/
def leadingSystem (messages : List Message) : List Message :=
  messages.takeWhile isSystem

/-- The `nonSystemMessages` variable after the classification loop of
`compactMessages`.  The variable is initialised to the whole history and
only reassigned (to `messages.slice(i)`) when the loop meets a
non-system message; if every message is system-role the loop never
breaks, so the variable keeps the whole history. -/
def nonSystemMessages (messages : List Message) : List Message :=
  if messages.all isSystem then messages else messages.dropWhile isSystem

/-- The transient partition built inside `compactMessages`. -/
structure Partition where
  systemMessages : List Message
  middleMessages : List Message
  recentMessages : List Message
deriving DecidableEq, Repr

/-- The partition step of `compactMessages` (lines 596-620): separate
the leading system messages, then split the remainder so that the last
`preserveRecentCount` messages are `recentMessages` and everything
before them is `middleMessages`; when the remainder is no longer than
`preserveRecentCount` it all becomes `recentMessages`. -/
def partitionMessages (o : CompactionOptions) (messages : List Message) :
    Partition :=
  if o.preserveRecentCount < (nonSystemMessages messages).length then
    ⟨leadingSystem messages,
      (nonSystemMessages messages).take
        ((nonSystemMessages messages).length - o.preserveRecentCount),
      (nonSystemMessages messages).drop
        ((nonSystemMessages messages).length - o.preserveRecentCount)⟩
  else
    ⟨leadingSystem messages, [], nonSystemMessages messages⟩

/-- The synthetic summary message inserted by `compactMessages`:
`new SystemMessage("[이전 대화 요약]\n" + summary)`. -/
def summaryMessage (summary : String) : Message :=
  ⟨Role.system, Content.str ("[이전 대화 요약]\n" ++ summary)⟩

/-- The no-op `CompactionResult` returned by `compactMessages` when
compaction is not needed or there is nothing to summarize. -/
def noopResult (enc : String → Nat) (messages : List Message) :
    CompactionResult :=
  { compacted := false
    originalCount := messages.length
    compactedCount := messages.length
    originalTokens := estimateTokens enc messages
    compactedTokens := estimateTokens enc messages
    messages := messages }

/-- `compactMessages(messages, force)`.  The summarization delegate
(`this.summarizeMessages`, an AI call that may throw) is modelled by
`summarize`; a thrown exception propagates as `Except.error`. -/
def compactMessages {E : Type} (enc : String → Nat) (o : CompactionOptions)
    (summarize : List Message → Except E String)
    (messages : List Message) (force : Bool) : Except E CompactionResult :=
  if !force && !shouldCompact enc o messages then
    Except.ok (noopResult enc messages)
  else
    if (partitionMessages o messages).middleMessages.length = 0 then
      Except.ok (noopResult enc messages)
    else
      match summarize (partitionMessages o messages).middleMessages with
      | Except.error e => Except.error e
      | Except.ok summary =>
        Except.ok
          { compacted := true
            originalCount := messages.length
            compactedCount :=
              ((partitionMessages o messages).systemMessages ++
                [summaryMessage summary] ++
                (partitionMessages o messages).recentMessages).length
            originalTokens := estimateTokens enc messages
            compactedTokens :=
              estimateTokens enc
                ((partitionMessages o messages).systemMessages ++
                  [summaryMessage summary] ++
                  (partitionMessages o messages).recentMessages)
            messages :=
              (partitionMessages o messages).systemMessages ++
                [summaryMessage summary] ++
                (partitionMessages o messages).recentMessages }

/-- `startsWithChars s p`: the char list `s` starts with `p`. -/
def startsWithChars : List Char → List Char → Bool
  | _, [] => true
  | [], _ :: _ => false
  | c :: cs, p :: ps => c = p && startsWithChars cs ps

/-- `hasSubChars pat s`: some tail of `s` starts with `pat`. -/
def hasSubChars (pat : List Char) : List Char → Bool
  | [] => startsWithChars [] pat
  | c :: rest => startsWithChars (c :: rest) pat || hasSubChars pat rest

/-- JavaScript `s.includes(pat)`: `pat` occurs as a contiguous substring
of `s` (always true for the empty pattern). -/
def strIncludes (s pat : String) : Bool :=
  hasSubChars pat.data s.data

/-- The context-injection filter of `handlerCompact` (lines 801-806): a
message is kept when its role is `"human"`, its content is a plain
string, and that string contains `"cocoagent.md"`. -/
def isContextInjection (m : Message) : Bool :=
  m.role = Role.human &&
    match m.content with
    | Content.str s => strIncludes s "cocoagent.md"
    | Content.parts _ => false

/-- The summary message appended by `handlerCompact`:
`new AIMessage("[이전 대화 요약]\n" + summary)`. -/
def aiSummaryMessage (summary : String) : Message :=
  ⟨Role.ai, Content.str ("[이전 대화 요약]\n" ++ summary)⟩

/-- The `/compact` command handler body (`handlerCompact`,
lines 784-830), for a session whose current history is `history`.  The
`this.summarizeAllMessages` AI call is modelled by its outcome
`summaryResult`; the handler first awaits it, so a failure propagates
before any new message array is built.  On success it returns the
replacement history (the argument of `sessionManager.replaceMessages`)
together with the `{type:"executed"}` acknowledgement.  The handler
reads none of `this.options`, which the parameter `o` records. -/
def handlerCompact {E : Type} (o : CompactionOptions) (enc : String → Nat)
    (summaryResult : Except E String) (history : List Message) :
    Except E (List Message × CommandResult) :=
  match summaryResult with
  | Except.error e => Except.error e
  | Except.ok summary =>
    let systemMessages := history.filter isSystem
    let contextMessages := history.filter isContextInjection
    let newMessages :=
      systemMessages ++ contextMessages ++ [aiSummaryMessage summary]
    let _originalTokens := estimateTokens enc history
    let _newTokens := estimateTokens enc newMessages
    Except.ok (newMessages, CommandResult.executed)

/-- One step of the session store around `handlerCompact`:
`sessionManager.replaceMessages(newMessages, sessionId)` runs only in
the success branch, after the summarization call returned; on failure
the exception propagates and the session keeps its history. -/
def handlerCompactSession {E : Type} (o : CompactionOptions)
    (enc : String → Nat) (summaryResult : Except E String)
    (history : List Message) : List Message × Except E CommandResult :=
  match handlerCompact o enc summaryResult history with
  | Except.error e => (history, Except.error e)
  | Except.ok (newMessages, r) => (newMessages, Except.ok r)

/-! ### Concrete sample data used by scenarios and witnesses -/

/-- A concrete stand-in for the tiktoken encoder: token count = length
of the string in characters. -/
def encLen (s : String) : Nat :=
  s.length

/-- Sample system message. -/
def sysA : Message :=
  ⟨Role.system, Content.str "system prompt A"⟩

/-- Second sample system message. -/
def sysB : Message :=
  ⟨Role.system, Content.str "system prompt B"⟩

/-- Sample context-injection message: human role, plain-string content
containing `"cocoagent.md"`. -/
def ctxInj : Message :=
  ⟨Role.human, Content.str "프로젝트 컨텍스트 cocoagent.md 내용"⟩

/-- Sample conversation message (alternating human/ai). -/
def convMsg (i : Nat) : Message :=
  if i % 2 = 0 then ⟨Role.human, Content.str "질문"⟩
  else ⟨Role.ai, Content.str "답변"⟩

/-- A short sample human message. -/
def humanHi : Message :=
  ⟨Role.human, Content.str "hi"⟩

/-- The history of end-to-end scenario C: 2 system messages, 1
context-injection message, 20 conversation messages. -/
def scenarioCHistory : List Message :=
  [sysA, sysB, ctxInj] ++ (List.range 20).map convMsg

/-- Five identical short human messages. -/
def fiveHums : List Message :=
  List.replicate 5 ⟨Role.human, Content.str "aaaa"⟩

/-- Project an `Except Unit CompactionResult` to its payload (dummy
no-op result on error); used to state concrete evaluations. -/
def exResult : Except Unit CompactionResult → CompactionResult
  | Except.ok r => r
  | Except.error _ => ⟨false, 0, 0, 0, 0, []⟩

/-! ### Helper lemmas -/

theorem foldl_add_eq_sum {α : Type} (f : α → Nat) (l : List α) (a : Nat) :
    l.foldl (fun acc m => acc + f m) a = a + (l.map f).sum := by
  induction l generalizing a with
  | nil => simp
  | cons x xs ih => simp [List.foldl, ih]; omega

theorem estimateTokens_eq_sum (enc : String → Nat) (l : List Message) :
    estimateTokens enc l = (l.map (messageTokens enc)).sum + 3 := by
  simp [estimateTokens, foldl_add_eq_sum]

theorem nonSystemMessages_eq_dropWhile (messages : List Message)
    (h : ¬ messages.all isSystem = true) :
    nonSystemMessages messages = messages.dropWhile isSystem := by
  simp [nonSystemMessages, h]

/-- When the history contains at least one non-system message the
classification loop works as intended and the partition reconstructs
the history. -/
theorem partition_concat (o : CompactionOptions) (messages : List Message)
    (h : ¬ messages.all isSystem = true) :
    (partitionMessages o messages).systemMessages ++
      ((partitionMessages o messages).middleMessages ++
        (partitionMessages o messages).recentMessages) = messages := by
  unfold partitionMessages leadingSystem
  rw [nonSystemMessages_eq_dropWhile messages h]
  split
  · simp [List.take_append_drop, List.takeWhile_append_dropWhile]
  · simp [List.takeWhile_append_dropWhile]

/-- Shape of a successful compaction: whenever `compactMessages`
returns a result with `compacted = true`, the delegate was called on
the (non-empty) middle region and the result is assembled from the
partition plus one synthetic summary message. -/
theorem compact_true_shape {E : Type} (enc : String → Nat)
    (o : CompactionOptions) (summarize : List Message → Except E String)
    (messages : List Message) (force : Bool) (r : CompactionResult)
    (hr : compactMessages enc o summarize messages force = Except.ok r)
    (hc : r.compacted = true) :
    ∃ s, summarize (partitionMessages o messages).middleMessages =
        Except.ok s ∧
      (partitionMessages o messages).middleMessages ≠ [] ∧
      r.originalCount = messages.length ∧
      r.messages = (partitionMessages o messages).systemMessages ++
        [summaryMessage s] ++ (partitionMessages o messages).recentMessages ∧
      r.compactedCount = r.messages.length ∧
      r.originalTokens = estimateTokens enc messages ∧
      r.compactedTokens = estimateTokens enc r.messages := by
  unfold compactMessages at hr
  split at hr
  · cases hr
    cases hc
  · split at hr
    · cases hr
      cases hc
    · rename_i hne
      split at hr
      · cases hr
      · rename_i s hs
        cases hr
        refine ⟨s, hs, ?_, rfl, rfl, rfl, rfl, rfl⟩
        intro hnil
        simp [hnil] at hne

/-! ### Claim theorems -/

/-- C6 counterexample: `estimateTokens` on the empty history does not
return 0 — the per-call overhead of 3 is added unconditionally, so the
result is 3. -/
theorem estimateTokens_empty_ne_zero :
    estimateTokens encLen [] ≠ 0 ∧ estimateTokens encLen [] = 3 := by
  constructor <;> decide

/-- C6 (amended): `estimateTokens` applied to the empty message
sequence returns 3 (the fixed per-call overhead) — a defined result,
not an error. -/
theorem estimateTokens_empty_eq_overhead (enc : String → Nat) :
    estimateTokens enc [] = 3 := by
  simp [estimateTokens]

/-- C7: a message whose payload is a multi-part sequence with one
image-reference part costs 85 tokens when the part declares low detail
and 400 tokens when detail is absent, auto or high, plus the fixed
per-message overhead of 4; and every call adds a fixed per-call
overhead of 3 (the empty call costs 3 and each appended message adds
exactly its own per-message cost). -/
theorem image_token_costs_and_overheads (enc : String → Nat) (role : Role) :
    messageTokens enc ⟨role, Content.parts [ContentPart.image (some Detail.low)]⟩ = 85 + 4 ∧
    messageTokens enc ⟨role, Content.parts [ContentPart.image none]⟩ = 400 + 4 ∧
    messageTokens enc ⟨role, Content.parts [ContentPart.image (some Detail.auto)]⟩ = 400 + 4 ∧
    messageTokens enc ⟨role, Content.parts [ContentPart.image (some Detail.high)]⟩ = 400 + 4 ∧
    estimateTokens enc [] = 3 ∧
    (∀ (messages : List Message) (m : Message),
      estimateTokens enc (messages ++ [m]) =
        estimateTokens enc messages + messageTokens enc m) := by
  refine ⟨rfl, rfl, rfl, rfl, rfl, ?_⟩
  intro messages m
  simp [estimateTokens_eq_sum]
  omega

/-- C8: `shouldCompact` returns true exactly when the estimated token
count divided by the context window size reaches the threshold, and the
boundary is inclusive: a history sitting exactly at the threshold
(9 estimated tokens, window 9, threshold 1) is due for compaction. -/
theorem shouldCompact_iff_threshold_le_occupancy (enc : String → Nat)
    (o : CompactionOptions) (messages : List Message) :
    (shouldCompact enc o messages = true ↔
      o.threshold ≤ (estimateTokens enc messages : ℚ) / o.contextWindowSize) ∧
    shouldCompact encLen (mkOptions (some 9) (some 1) none) [humanHi] = true := by
  constructor
  · simp [shouldCompact, calculateUsageRatio]
  · have h9 : estimateTokens encLen [humanHi] = 9 := by decide
    simp [shouldCompact, calculateUsageRatio, mkOptions, orDefault, h9]

/-- C9 counterexample: the constructor performs no validation — an
invalid configuration (negative window, threshold outside (0,1]) is
accepted as-is, and the falsy value 0 is silently replaced by the
default rather than rejected; construction never fails. -/
theorem mkOptions_accepts_invalid_config :
    mkOptions (some (-5)) (some (3 / 2)) none =
      ⟨-5, 3 / 2, 4⟩ ∧
    mkOptions (some 0) (some 0) (some 0) = ⟨128000, 7 / 10, 4⟩ := by
  constructor
  · simp [mkOptions, orDefault, orDefaultNat]
  · simp [mkOptions, orDefault, orDefaultNat]

/-- C9 (amended): construction never fails; any non-zero value —
including invalid ones such as a negative window size or a threshold
above 1 — is stored unchanged, and absent or zero (falsy) fields are
silently replaced by the defaults 128000, 0.7 and 4. -/
theorem mkOptions_never_fails_amended (cw th : ℚ) (pr : Nat)
    (hcw : cw ≠ 0) (hth : th ≠ 0) (hpr : pr ≠ 0) :
    mkOptions (some cw) (some th) (some pr) = ⟨cw, th, pr⟩ ∧
    mkOptions none none none = ⟨128000, 7 / 10, 4⟩ := by
  constructor
  · simp [mkOptions, orDefault, orDefaultNat, hcw, hth, hpr]
  · simp [mkOptions, orDefault, orDefaultNat]

/-- Witness for C9 (amended) at the concrete invalid configuration
`{contextWindowSize := -5, threshold := 3/2, preserveRecentCount := 7}`. -/
theorem mkOptions_never_fails_amended_witness :
    mkOptions (some (-5)) (some (3 / 2)) (some 7) =
      ⟨-5, 3 / 2, 7⟩ ∧
    mkOptions none none none = ⟨128000, 7 / 10, 4⟩ :=
  mkOptions_never_fails_amended (-5) (3 / 2) 7 (by norm_num) (by norm_num)
    (by norm_num)

/-- C2: when `force` is false and the occupancy is strictly below the
threshold, `compactMessages` returns a no-op outcome: `compacted =
false`, the messages are the input history itself, and the after
count/tokens equal the before count/tokens. -/
theorem compactMessages_below_threshold_noop {E : Type} (enc : String → Nat)
    (o : CompactionOptions) (summarize : List Message → Except E String)
    (messages : List Message)
    (h : calculateUsageRatio enc o messages < o.threshold) :
    ∃ r, compactMessages enc o summarize messages false = Except.ok r ∧
      r.compacted = false ∧
      r.messages = messages ∧
      r.originalCount = messages.length ∧
      r.compactedCount = r.originalCount ∧
      r.originalTokens = estimateTokens enc messages ∧
      r.compactedTokens = r.originalTokens := by
  have hsc : shouldCompact enc o messages = false := by
    simp [shouldCompact, calculateUsageRatio] at h ⊢
    exact h
  refine ⟨noopResult enc messages, ?_, rfl, rfl, rfl, rfl, rfl, rfl⟩
  simp [compactMessages, hsc]

/-- Witness for C2: default configuration, a single short human message
(9 estimated tokens, occupancy 9/128000 < 0.7). -/
theorem compactMessages_below_threshold_noop_witness :
    ∃ r, compactMessages (E := Unit) encLen (mkOptions none none none)
        (fun _ => Except.ok "") [humanHi] false = Except.ok r ∧
      r.compacted = false ∧
      r.messages = [humanHi] ∧
      r.originalCount = [humanHi].length ∧
      r.compactedCount = r.originalCount ∧
      r.originalTokens = estimateTokens encLen [humanHi] ∧
      r.compactedTokens = r.originalTokens :=
  compactMessages_below_threshold_noop encLen (mkOptions none none none)
    (fun _ => Except.ok "") [humanHi]
    (by
      have h9 : estimateTokens encLen [humanHi] = 9 := by decide
      simp [calculateUsageRatio, mkOptions, orDefault, h9]
      norm_num)

/-- Six identical long human messages (20 characters each). -/
def sixLongHums : List Message :=
  List.replicate 6 ⟨Role.human, Content.str "aaaaaaaaaaaaaaaaaaaa"⟩

/-- C1 (code bug): on a history consisting only of system-role messages
the classification loop of `compactMessages` never resets
`nonSystemMessages`, so every message lands both in `systemMessages`
and in the middle/recent split — the concatenation of the three parts
has 10 elements for a 5-message history instead of reconstructing it. -/
theorem partition_totality_fails_on_all_system_history :
    (partitionMessages (mkOptions none none none)
        (List.replicate 5 sysA)).systemMessages ++
      ((partitionMessages (mkOptions none none none)
          (List.replicate 5 sysA)).middleMessages ++
        (partitionMessages (mkOptions none none none)
            (List.replicate 5 sysA)).recentMessages) ≠
      List.replicate 5 sysA ∧
    ((partitionMessages (mkOptions none none none)
        (List.replicate 5 sysA)).systemMessages ++
      ((partitionMessages (mkOptions none none none)
          (List.replicate 5 sysA)).middleMessages ++
        (partitionMessages (mkOptions none none none)
            (List.replicate 5 sysA)).recentMessages)).length = 10 ∧
    (List.replicate 5 sysA).length = 5 := by
  refine ⟨by decide, by decide, by decide⟩

/-- C3: the forced full-rewrite `/compact` handler always succeeds with
an `executed` acknowledgement (no threshold check, no token statistics
in the contract), and on the scenario-C history (2 system messages, 1
context-injection message, 20 conversation messages) the replacement
history is exactly `[2 system, 1 context, 1 assistant summary]` — 4
messages. -/
theorem handlerCompact_forced_rewrite_scenario {E : Type} (s : String)
    (history : List Message) :
    (∃ newMessages,
      handlerCompact (E := E) (mkOptions none none none) encLen
          (Except.ok s) history =
        Except.ok (newMessages, CommandResult.executed)) ∧
    handlerCompact (E := E) (mkOptions none none none) encLen (Except.ok s)
        scenarioCHistory =
      Except.ok ([sysA, sysB, ctxInj, aiSummaryMessage s],
        CommandResult.executed) ∧
    [sysA, sysB, ctxInj, aiSummaryMessage s].length = 4 := by
  have hsys : scenarioCHistory.filter isSystem = [sysA, sysB] := by decide
  have hctx : scenarioCHistory.filter isContextInjection = [ctxInj] := by
    decide
  refine ⟨⟨_, rfl⟩, ?_, rfl⟩
  simp [handlerCompact, hsys, hctx]

/-- C4: if the summarization delegate fails, `compactMessages` either
never reaches the delegate (returning the unchanged no-op outcome) or
propagates the error unchanged; the forced-path handler propagates the
error before building any replacement, so the session keeps its
pre-call history. -/
theorem delegate_failure_propagates_history_unchanged {E : Type}
    (enc : String → Nat) (o : CompactionOptions)
    (messages session : List Message) (force : Bool) (e : E) :
    (compactMessages enc o (fun _ => Except.error e) messages force =
        Except.error e ∨
      compactMessages enc o (fun _ => Except.error e) messages force =
        Except.ok (noopResult enc messages)) ∧
    (noopResult enc messages).messages = messages ∧
    (noopResult enc messages).compacted = false ∧
    handlerCompact (E := E) o enc (Except.error e) session =
      Except.error e ∧
    (handlerCompactSession (E := E) o enc (Except.error e) session).1 =
      session ∧
    (handlerCompactSession (E := E) o enc (Except.error e) session).2 =
      Except.error e := by
  refine ⟨?_, rfl, rfl, rfl, rfl, rfl⟩
  unfold compactMessages
  split
  · exact Or.inr rfl
  · split
    · exact Or.inr rfl
    · exact Or.inl rfl

/-- C10: in the forced full-rewrite path a message is recognized as a
context-injection message exactly when it is human-role with a plain
string payload containing `"cocoagent.md"`; the replacement history
contains precisely the original system and context-injection messages
plus the one assistant summary message (so any other message, however
recent, is absent), and the handler's output does not depend on the
configuration — in particular not on `preserveRecentCount`. -/
theorem forced_rewrite_membership_characterization {E : Type}
    (o o' : CompactionOptions) (enc : String → Nat) (s : String)
    (history : List Message) (x : Message) :
    (∃ newMessages,
      handlerCompact (E := E) o enc (Except.ok s) history =
        Except.ok (newMessages, CommandResult.executed) ∧
      (x ∈ newMessages ↔
        (x ∈ history ∧ (isSystem x = true ∨ isContextInjection x = true)) ∨
        x = aiSummaryMessage s)) ∧
    (isContextInjection x = true ↔
      x.role = Role.human ∧
      ∃ str, x.content = Content.str str ∧
        strIncludes str "cocoagent.md" = true) ∧
    handlerCompact (E := E) o enc (Except.ok s) history =
      handlerCompact (E := E) o' enc (Except.ok s) history := by
  refine ⟨⟨_, rfl, ?_⟩, ?_, rfl⟩
  · simp [List.mem_append, List.mem_filter]
    tauto
  · obtain ⟨role, content⟩ := x
    cases content with
    | str str => simp [isContextInjection]
    | parts ps => simp [isContextInjection]

/-- C5 counterexample: `compacted = true` does not imply
`compactedCount ≤ originalCount` (an all-system 5-message history is
force-compacted to 10 messages), and a non-empty middle region does not
imply `compactedTokens < originalTokens` (a short middle replaced by a
longer AI summary increases the token estimate). -/
theorem monotonic_reduction_counterexample :
    (exResult (compactMessages encLen (mkOptions none none none)
        (fun _ => Except.ok "x") (List.replicate 5 sysA) true)).compacted =
      true ∧
    (exResult (compactMessages encLen (mkOptions none none none)
        (fun _ => Except.ok "x") (List.replicate 5 sysA) true)).originalCount <
      (exResult (compactMessages encLen (mkOptions none none none)
        (fun _ => Except.ok "x") (List.replicate 5 sysA) true)).compactedCount ∧
    (exResult (compactMessages encLen (mkOptions none none none)
        (fun _ => Except.ok "0123456789") fiveHums true)).compacted = true ∧
    (partitionMessages (mkOptions none none none) fiveHums).middleMessages ≠
      [] ∧
    (exResult (compactMessages encLen (mkOptions none none none)
        (fun _ => Except.ok "0123456789") fiveHums true)).originalTokens <
      (exResult (compactMessages encLen (mkOptions none none none)
        (fun _ => Except.ok "0123456789") fiveHums true)).compactedTokens := by
  refine ⟨by decide, by decide, by decide, by decide, by decide⟩

/-- C5 (amended): whenever `compactMessages` reports `compacted = true`
on a history containing at least one non-system message,
`compactedCount ≤ originalCount`; and `compactedTokens <
originalTokens` holds under the additional premise that the synthetic
summary message costs fewer estimated tokens than the replaced middle
region (the AI-produced summary text is otherwise unconstrained). -/
theorem monotonic_reduction_amended {E : Type} (enc : String → Nat)
    (o : CompactionOptions) (summarize : List Message → Except E String)
    (messages : List Message) (force : Bool) (r : CompactionResult)
    (hns : ¬ messages.all isSystem = true)
    (hr : compactMessages enc o summarize messages force = Except.ok r)
    (hc : r.compacted = true) :
    r.compactedCount ≤ r.originalCount ∧
    ((∀ s,
      summarize (partitionMessages o messages).middleMessages =
        Except.ok s →
      messageTokens enc (summaryMessage s) <
        ((partitionMessages o messages).middleMessages.map
          (messageTokens enc)).sum) →
      r.compactedTokens < r.originalTokens) := by
  obtain ⟨s, hs, hmid, hoc, hmsg, hcc, hot, hct⟩ :=
    compact_true_shape enc o summarize messages force r hr hc
  have hconcat := partition_concat o messages hns
  have hmid1 : 1 ≤ (partitionMessages o messages).middleMessages.length := by
    cases hP : (partitionMessages o messages).middleMessages with
    | nil => exact absurd hP hmid
    | cons a l => simp
  have hlen : (partitionMessages o messages).systemMessages.length +
      ((partitionMessages o messages).middleMessages.length +
        (partitionMessages o messages).recentMessages.length) =
      messages.length := by
    conv_rhs => rw [← hconcat]
    simp
  constructor
  · rw [hcc, hmsg, hoc]
    simp
    omega
  · intro hts
    have hmt := hts s hs
    rw [hct, hot, hmsg]
    conv_rhs => rw [← hconcat]
    simp [estimateTokens_eq_sum]
    omega

/-- Witness for C5 (amended): six 20-character human messages,
force-compacted with an empty summary (summary message costs 15 tokens,
the two-message middle costs 48). -/
theorem monotonic_reduction_amended_witness :
    (exResult (compactMessages encLen (mkOptions none none none)
        (fun _ => Except.ok "") sixLongHums true)).compactedCount ≤
      (exResult (compactMessages encLen (mkOptions none none none)
        (fun _ => Except.ok "") sixLongHums true)).originalCount ∧
    (exResult (compactMessages encLen (mkOptions none none none)
        (fun _ => Except.ok "") sixLongHums true)).compactedTokens <
      (exResult (compactMessages encLen (mkOptions none none none)
        (fun _ => Except.ok "") sixLongHums true)).originalTokens := by
  have h := monotonic_reduction_amended (E := Unit) encLen
    (mkOptions none none none) (fun _ => Except.ok "") sixLongHums true
    (exResult (compactMessages encLen (mkOptions none none none)
      (fun _ => Except.ok "") sixLongHums true))
    (by decide) rfl (by decide)
  refine ⟨h.1, h.2 ?_⟩
  intro s hs
  injection hs with h'
  subst h'
  decide

end Cocodex
